import Mathlib

/-!
Shallow embedding of the inventory service in src/main.js.

The server state is the Postgres `inventory` table (a list of rows), the
`uploads` directory (an association list from filename to bytes), and the
SERIAL id counter.  Each Express route handler becomes a function from
state and request data to a response and a new state.  The multer
middleware (`upload.single`) writes the uploaded file to the uploads
directory before the handler body runs, so each handler that accepts an
upload stores the new file first.  Where a handler performs several
writes in sequence (unlink, then SQL), the state after each write is also
exposed as a definition, so that the intermediate states the code passes
through can be reasoned about.
-/

/-- One row of the `inventory` table (id SERIAL, name, description, photo,
created_at).  `photo` is the filename stored in the uploads directory;
NULL columns are `Option`. -/
structure Record where
  id : Nat
  name : String
  description : Option String
  photo : Option String
  createdAt : Nat
  deriving Repr, DecidableEq

/-- The whole observable state: the table rows (in id order of insertion),
the uploads directory as a filename-to-bytes association list, and the
next value of the SERIAL id sequence. -/
structure ServerState where
  records : List Record
  files : List (String × List Nat)
  nextId : Nat
  deriving Repr, DecidableEq

/-- An HTTP response, as the handlers produce it:  a plain-text status
(`res.status(n).send(msg)`), a 201 JSON body with the full created row,
a 200 JSON body with the row projection `id, name, description, photo`
returned by the UPDATE queries, or raw file bytes from `res.sendFile`. -/
inductive Resp where
  | text (status : Nat) (msg : String)
  | created (r : Record)
  | okRecord (id : Nat) (name : String) (description : Option String) (photo : Option String)
  | file (bytes : List Nat)
  deriving Repr, DecidableEq

/-- Look up a file in the uploads directory (first binding wins, as a
filesystem has one file per name). -/
def getFile (fs : List (String × List Nat)) (fn : String) : Option (List Nat) :=
  (fs.find? (fun e => e.1 == fn)).map (fun e => e.2)

/-- `fs.existsSync` on the uploads directory. -/
def fileExists (fs : List (String × List Nat)) (fn : String) : Bool :=
  (getFile fs fn).isSome

/-- Write a file (multer disk storage): the new binding shadows any older
one with the same name, i.e. overwrites. -/
def putFile (fs : List (String × List Nat)) (fn : String) (b : List Nat) :
    List (String × List Nat) :=
  (fn, b) :: fs

/-- `fs.unlinkSync`: remove every binding of the name. -/
def deleteFile (fs : List (String × List Nat)) (fn : String) :
    List (String × List Nat) :=
  fs.filter (fun e => !(e.1 == fn))

/-- `SELECT ... FROM inventory WHERE id=$1`, taking `rows[0]`. -/
def findRecord (recs : List Record) (id : Nat) : Option Record :=
  recs.find? (fun r => r.id == id)

/-- The multer middleware step: if the request carries a `photo` part,
its file is written to the uploads directory before the handler body
runs; otherwise nothing happens. -/
def multerStore (s : ServerState) (upload : Option (String × List Nat)) : ServerState :=
  match upload with
  | none => s
  | some (fn, b) => { s with files := putFile s.files fn b }

/-- JavaScript `x || null` on an optional string field of `req.body`:
an absent field stays absent, and an empty string is coerced to null. -/
def jsNull (o : Option String) : Option String :=
  match o with
  | none => none
  | some v => if v = "" then none else some v

/-- SQL `COALESCE(new, old)`. -/
def coalesce (new old : Option String) : Option String :=
  match new with
  | some v => some v
  | none => old

/-- POST /register (src/main.js lines 118-133).  multer stores the upload
first; then the handler rejects an absent or empty `inventory_name` with
400, else INSERTs a row with the next SERIAL id and `created_at = now`,
answering 201 with the created row.  The 400 message is the source
message with its apostrophe elided. -/
def create (s : ServerState) (now : Nat) (name description : Option String)
    (upload : Option (String × List Nat)) : Resp × ServerState :=
  let s0 := multerStore s upload
  match name with
  | none => (.text 400 "Bad Request: inventory_name обовязкове", s0)
  | some n =>
    if n = "" then (.text 400 "Bad Request: inventory_name обовязкове", s0)
    else
      let r : Record :=
        { id := s0.nextId, name := n, description := jsNull description
          photo := upload.map (fun u => u.1), createdAt := now }
      (.created r, { s0 with records := s0.records ++ [r], nextId := s0.nextId + 1 })

/-- PUT /inventory/:id (src/main.js lines 238-254).  404 if the id is
absent; otherwise `UPDATE ... SET name = COALESCE($1, name), description
= COALESCE($2, description)` with `inventory_name || null` and
`description || null` as parameters, answering 200 with the updated
row. -/
def updateFields (s : ServerState) (id : Nat) (name description : Option String) :
    Resp × ServerState :=
  match findRecord s.records id with
  | none => (.text 404 "Not Found", s)
  | some r =>
    let n := jsNull name
    let d := jsNull description
    let r' : Record :=
      { r with name := n.getD r.name, description := coalesce d r.description }
    let recs := s.records.map fun x =>
      if x.id == id then { x with name := n.getD x.name, description := coalesce d x.description }
      else x
    (.okRecord r'.id r'.name r'.description r'.photo, { s with records := recs })

/-- GET /inventory/:id/photo (src/main.js lines 273-288).  404 "Not
Found" if the row is absent; 404 "Photo Not Found" if the photo column
is NULL or the file is missing from the uploads directory; else the file
bytes. -/
def fetchPhoto (s : ServerState) (id : Nat) : Resp :=
  match findRecord s.records id with
  | none => .text 404 "Not Found"
  | some r =>
    match r.photo with
    | none => .text 404 "Photo Not Found"
    | some p =>
      match getFile s.files p with
      | none => .text 404 "Photo Not Found"
      | some b => .file b

/-- The old-photo cleanup step shared by the photo-replace and delete
handlers: if the row has a photo and its file exists, unlink it. -/
def unlinkOldPhoto (s : ServerState) (r : Record) : ServerState :=
  match r.photo with
  | none => s
  | some old =>
    if fileExists s.files old then { s with files := deleteFile s.files old } else s

/-- The state PUT /inventory/:id/photo passes through after the old file
has been unlinked (src/main.js line 327) but before the UPDATE query of
line 331 commits: the handler awaits the query, so this state is
observable by concurrent requests. -/
def replacePhotoMid (s : ServerState) (id : Nat) (upload : Option (String × List Nat)) :
    ServerState :=
  let s0 := multerStore s upload
  match findRecord s0.records id with
  | none => s0
  | some r =>
    match upload with
    | none => s0
    | some _ => unlinkOldPhoto s0 r

/-- PUT /inventory/:id/photo (src/main.js lines 317-337).  multer stores
the new file first; then: 404 if the row is absent, 400 if no `photo`
part was sent; otherwise the handler unlinks the old photo file (lines
325-328) and only then UPDATEs the photo column to the new filename
(line 331), answering 200 with the updated row. -/
def replacePhoto (s : ServerState) (id : Nat) (upload : Option (String × List Nat)) :
    Resp × ServerState :=
  let s0 := multerStore s upload
  match findRecord s0.records id with
  | none => (.text 404 "Not Found", s0)
  | some r =>
    match upload with
    | none => (.text 400 "Bad Request: photo file required", s0)
    | some (fn, _) =>
      let s1 := unlinkOldPhoto s0 r
      let recs := s1.records.map fun x =>
        if x.id == id then { x with photo := some fn } else x
      (.okRecord r.id r.name r.description (some fn), { s1 with records := recs })

/-- The state DELETE /inventory/:id passes through after the photo file
has been unlinked (src/main.js line 364) but before the DELETE query of
line 366 commits. -/
def deleteRecordMid (s : ServerState) (id : Nat) : ServerState :=
  match findRecord s.records id with
  | none => s
  | some r => unlinkOldPhoto s r

/-- DELETE /inventory/:id (src/main.js lines 356-372).  404 if the row
is absent; otherwise the handler unlinks the photo file if any (lines
362-365) and then DELETEs the row (line 366). -/
def deleteRecord (s : ServerState) (id : Nat) : Resp × ServerState :=
  match findRecord s.records id with
  | none => (.text 404 "Not Found", s)
  | some r =>
    let s1 := unlinkOldPhoto s r
    (.text 200 "Deleted successfully",
      { s1 with records := s1.records.filter (fun x => !(x.id == id)) })

/-- A state-mutating request, for statements quantified over all
operations. -/
inductive Op where
  | createOp (now : Nat) (name description : Option String) (upload : Option (String × List Nat))
  | updateOp (id : Nat) (name description : Option String)
  | replaceOp (id : Nat) (upload : Option (String × List Nat))
  | deleteOp (id : Nat)
  deriving Repr, DecidableEq

/-- The final state a request leaves behind. -/
def applyOp (s : ServerState) : Op → ServerState
  | .createOp now name description upload => (create s now name description upload).2
  | .updateOp id name description => (updateFields s id name description).2
  | .replaceOp id upload => (replacePhoto s id upload).2
  | .deleteOp id => (deleteRecord s id).2

/-- Invariant I1 of the spec, on a state: every non-NULL photo column
names a file that exists in the uploads directory. -/
def I1 (s : ServerState) : Bool :=
  s.records.all fun r =>
    match r.photo with
    | none => true
    | some p => fileExists s.files p

/-- The filename of an upload is fresh: no row's photo column already
names it (multer's `Date.now()`-prefixed names make this hold in
practice). -/
def photoFresh (s : ServerState) (fn : String) : Bool :=
  s.records.all fun r => !(r.photo == some fn)

/-- No two distinct rows share a photo filename. -/
@[reducible] def photosInjective (s : ServerState) : Prop :=
  ∀ r₁ ∈ s.records, ∀ r₂ ∈ s.records, r₁.photo ≠ none → r₁.photo = r₂.photo → r₁ = r₂

/-- Freshness side condition of an operation: any filename it uploads is
fresh for the current state. -/
@[reducible] def opFresh (s : ServerState) : Op → Prop
  | .createOp _ _ _ (some (fn, _)) => photoFresh s fn = true
  | .replaceOp _ (some (fn, _)) => photoFresh s fn = true
  | _ => True

/-- The SERIAL invariant: every existing id is below the sequence
counter. -/
def idsBelowNext (s : ServerState) : Bool :=
  s.records.all fun r => r.id < s.nextId

/-- A concrete photo filename used in the example states. -/
def photoA : String := "111_a.jpg"

/-- A concrete replacement filename. -/
def photoB : String := "222_b.jpg"

/-- A concrete record owning `photoA`. -/
def recA : Record :=
  { id := 1, name := "Widget", description := some ("spare part")
    photo := some photoA, createdAt := 10 }

/-- A concrete record with no photo. -/
def recNoPhoto : Record :=
  { id := 2, name := "Bolt", description := none, photo := none, createdAt := 11 }

/-- A concrete server state: two rows, one photo file, counter at 3. -/
def exState : ServerState :=
  { records := [recA, recNoPhoto], files := [(photoA, [255, 216])], nextId := 3 }

/-- A concrete state whose one row references a file missing from the
uploads directory (a dangling reference). -/
def exStateDangling : ServerState :=
  { records := [recA], files := [], nextId := 3 }

theorem fileExists_iff (fs : List (String × List Nat)) (p : String) :
    fileExists fs p = true ↔ ∃ e ∈ fs, e.1 = p := by
  simp [fileExists, getFile, List.find?_isSome]

theorem fileExists_putFile (fs : List (String × List Nat)) (fn : String) (b : List Nat)
    (p : String) :
    fileExists (putFile fs fn b) p = true ↔ p = fn ∨ fileExists fs p = true := by
  simp only [fileExists_iff, putFile, List.mem_cons]
  constructor
  · rintro ⟨e, he | he, hp⟩
    · left; rw [he] at hp; exact hp.symm
    · right; exact ⟨e, he, hp⟩
  · rintro (h | ⟨e, he, hp⟩)
    · exact ⟨(fn, b), Or.inl rfl, h.symm⟩
    · exact ⟨e, Or.inr he, hp⟩

theorem fileExists_deleteFile (fs : List (String × List Nat)) (fn p : String) :
    fileExists (deleteFile fs fn) p = true ↔ p ≠ fn ∧ fileExists fs p = true := by
  simp only [fileExists_iff, deleteFile, List.mem_filter]
  constructor
  · rintro ⟨e, ⟨he, hne⟩, hp⟩
    simp only [Bool.not_eq_true', beq_eq_false_iff_ne, ne_eq] at hne
    subst hp
    exact ⟨hne, e, he, rfl⟩
  · rintro ⟨hne, e, he, hp⟩
    refine ⟨e, ⟨he, ?_⟩, hp⟩
    simp only [Bool.not_eq_true', beq_eq_false_iff_ne, ne_eq]
    rw [hp]; exact hne

theorem getFile_putFile_self (fs : List (String × List Nat)) (fn : String) (b : List Nat) :
    getFile (putFile fs fn b) fn = some b := by
  simp [getFile, putFile, List.find?]

theorem findRecord_mem {recs : List Record} {id : Nat} {r : Record}
    (h : findRecord recs id = some r) : r ∈ recs ∧ r.id = id := by
  refine ⟨List.mem_of_find?_eq_some h, ?_⟩
  have := List.find?_some h
  simpa using this

theorem findRecord_map_presId (recs : List Record) (id : Nat) (f : Record → Record)
    (hf : ∀ r, (f r).id = r.id) :
    findRecord (recs.map f) id = (findRecord recs id).map f := by
  induction recs with
  | nil => rfl
  | cons a l ih =>
    simp only [List.map_cons, findRecord, List.find?]
    rw [hf a]
    cases h : (a.id == id) with
    | true => rfl
    | false => exact ih

theorem findRecord_filter_ne (recs : List Record) (id : Nat) :
    findRecord (recs.filter (fun x => !(x.id == id))) id = none := by
  rw [findRecord, List.find?_eq_none]
  intro x hx
  have := (List.mem_filter.mp hx).2
  simp only [Bool.not_eq_true'] at this
  simp [this]

theorem findRecord_append (l₁ l₂ : List Record) (id : Nat)
    (h : ∀ x ∈ l₁, x.id ≠ id) :
    findRecord (l₁ ++ l₂) id = findRecord l₂ id := by
  induction l₁ with
  | nil => rfl
  | cons a l ih =>
    simp only [List.cons_append, findRecord, List.find?]
    have ha : (a.id == id) = false := by
      simp only [beq_eq_false_iff_ne, ne_eq]
      exact h a (List.mem_cons_self a l)
    rw [ha]
    exact ih fun x hx => h x (List.mem_cons_of_mem a hx)

theorem I1_iff (s : ServerState) :
    I1 s = true ↔ ∀ r ∈ s.records, ∀ p, r.photo = some p → fileExists s.files p = true := by
  rw [I1, List.all_eq_true]
  constructor
  · intro h r hr p hp
    have := h r hr
    rw [hp] at this
    exact this
  · intro h r hr
    cases hp : r.photo with
    | none => rfl
    | some p => exact h r hr p hp

theorem photoFresh_iff (s : ServerState) (fn : String) :
    photoFresh s fn = true ↔ ∀ r ∈ s.records, r.photo ≠ some fn := by
  rw [photoFresh, List.all_eq_true]
  constructor
  · intro h r hr
    have := h r hr
    simpa using this
  · intro h r hr
    simpa using h r hr

theorem multerStore_records (s : ServerState) (u : Option (String × List Nat)) :
    (multerStore s u).records = s.records := by
  cases u with
  | none => rfl
  | some p => rfl

theorem multerStore_nextId (s : ServerState) (u : Option (String × List Nat)) :
    (multerStore s u).nextId = s.nextId := by
  cases u with
  | none => rfl
  | some p => rfl

theorem unlinkOldPhoto_records (s : ServerState) (r : Record) :
    (unlinkOldPhoto s r).records = s.records := by
  unfold unlinkOldPhoto
  split
  · rfl
  · split <;> rfl

theorem unlinkOldPhoto_nextId (s : ServerState) (r : Record) :
    (unlinkOldPhoto s r).nextId = s.nextId := by
  unfold unlinkOldPhoto
  split
  · rfl
  · split <;> rfl

theorem unlinkOldPhoto_gone (s : ServerState) (r : Record) (old : String)
    (hold : r.photo = some old) :
    fileExists (unlinkOldPhoto s r).files old = false := by
  cases hg : fileExists s.files old with
  | false => simp [unlinkOldPhoto, hold, hg]
  | true =>
    simp only [unlinkOldPhoto, hold, hg, if_true]
    rw [Bool.eq_false_iff]
    intro hcon
    exact absurd ((fileExists_deleteFile s.files old old).mp hcon).1 (fun hne => hne rfl)

/-- C4: for an existing record without a photo, GET /inventory/:id/photo
answers the asset-not-found response (404 "Photo Not Found"); the same
response is given when the photo column is set but the file cannot be
retrieved; a missing record answers the distinct not-found response
(404 "Not Found"). -/
theorem claim4_fetch_photo_errors (s : ServerState) (id : Nat) :
    (findRecord s.records id = none → fetchPhoto s id = .text 404 "Not Found") ∧
    (∀ r, findRecord s.records id = some r → r.photo = none →
      fetchPhoto s id = .text 404 "Photo Not Found") ∧
    (∀ r p, findRecord s.records id = some r → r.photo = some p →
      getFile s.files p = none → fetchPhoto s id = .text 404 "Photo Not Found") ∧
    (Resp.text 404 "Photo Not Found" ≠ Resp.text 404 "Not Found") := by
  refine ⟨?_, ?_, ?_, by decide⟩
  · intro h
    simp [fetchPhoto, h]
  · intro r h hp
    simp [fetchPhoto, h, hp]
  · intro r p h hp hg
    simp [fetchPhoto, h, hp, hg]

/-- Witness for C4 at the example states: absent id 9, photo-less row 2,
and a dangling reference. -/
theorem claim4_witness :
    fetchPhoto exState 9 = .text 404 "Not Found" ∧
    fetchPhoto exState 2 = .text 404 "Photo Not Found" ∧
    fetchPhoto exStateDangling 1 = .text 404 "Photo Not Found" :=
  ⟨(claim4_fetch_photo_errors exState 9).1 (by decide),
   (claim4_fetch_photo_errors exState 2).2.1 recNoPhoto (by decide) (by decide),
   (claim4_fetch_photo_errors exStateDangling 1).2.2.1 recA photoA (by decide) (by decide)
     (by decide)⟩

/-- C8: after a successful DELETE /inventory/:id, a second DELETE of the
same id answers 404 "Not Found" and leaves the state exactly as the
first delete left it (no further side effect on rows or files). -/
theorem claim8_delete_idempotent (s : ServerState) (id : Nat) (r : Record)
    (h : findRecord s.records id = some r) :
    (deleteRecord s id).1 = .text 200 "Deleted successfully" ∧
    deleteRecord (deleteRecord s id).2 id =
      (.text 404 "Not Found", (deleteRecord s id).2) := by
  have hstate : (deleteRecord s id).2.records =
      (unlinkOldPhoto s r).records.filter (fun x => !(x.id == id)) := by
    simp [deleteRecord, h]
  have hresp : (deleteRecord s id).1 = .text 200 "Deleted successfully" := by
    simp [deleteRecord, h]
  have hnone : findRecord (deleteRecord s id).2.records id = none := by
    rw [hstate]
    exact findRecord_filter_ne _ id
  refine ⟨hresp, ?_⟩
  obtain ⟨s1, hs1⟩ : ∃ s1, (deleteRecord s id).2 = s1 := ⟨_, rfl⟩
  rw [hs1] at hnone ⊢
  simp [deleteRecord, hnone]

/-- Witness for C8: deleting row 1 of the example state twice. -/
theorem claim8_witness :
    (deleteRecord exState 1).1 = .text 200 "Deleted successfully" ∧
    deleteRecord (deleteRecord exState 1).2 1 =
      (.text 404 "Not Found", (deleteRecord exState 1).2) :=
  claim8_delete_idempotent exState 1 recA (by decide)

/-- C10: when PUT /inventory/:id/photo fails because the row is absent
(404) the rows are unchanged and no existing file is deleted (multer may
have stored the new upload); when it fails because no photo part was
sent (400) the whole state is unchanged — the old asset is unlinked only
after both checks pass. -/
theorem claim10_replace_error_atomic (s : ServerState) (id : Nat)
    (upload : Option (String × List Nat)) :
    (findRecord s.records id = none →
      (replacePhoto s id upload).1 = .text 404 "Not Found" ∧
      (replacePhoto s id upload).2.records = s.records ∧
      ∀ fn, fileExists s.files fn = true →
        fileExists (replacePhoto s id upload).2.files fn = true) ∧
    (∀ r, findRecord s.records id = some r → upload = none →
      replacePhoto s id upload = (.text 400 "Bad Request: photo file required", s)) := by
  constructor
  · intro h
    cases upload with
    | none =>
      refine ⟨by simp [replacePhoto, multerStore, h], by simp [replacePhoto, multerStore, h], ?_⟩
      intro fn hfn
      simpa [replacePhoto, multerStore, h] using hfn
    | some u =>
      obtain ⟨fn0, b0⟩ := u
      have h' : findRecord (multerStore s (some (fn0, b0))).records id = none := by
        rw [multerStore_records]; exact h
      refine ⟨?_, ?_, ?_⟩
      · simp only [replacePhoto]
        rw [h']
      · simp only [replacePhoto]
        rw [h']
        exact multerStore_records s (some (fn0, b0))
      · intro fn hfn
        simp only [replacePhoto]
        rw [h']
        simp only [multerStore]
        exact (fileExists_putFile s.files fn0 b0 fn).mpr (Or.inr hfn)
  · intro r h hu
    subst hu
    simp [replacePhoto, multerStore, h]

/-- Witness for C10: a missing row with an upload, and an existing row
without an upload. -/
theorem claim10_witness :
    (replacePhoto exState 9 (some (photoB, [2]))).1 = .text 404 "Not Found" ∧
    (replacePhoto exState 9 (some (photoB, [2]))).2.records = exState.records ∧
    fileExists (replacePhoto exState 9 (some (photoB, [2]))).2.files photoA = true ∧
    replacePhoto exState 1 none = (.text 400 "Bad Request: photo file required", exState) := by
  have h := claim10_replace_error_atomic exState 9 (some (photoB, [2]))
  have h1 := h.1 (by decide)
  exact ⟨h1.1, h1.2.1, h1.2.2 photoA (by decide),
    (claim10_replace_error_atomic exState 1 none).2 recA (by decide) rfl⟩

/-- C7: POST /register answers 400 when `inventory_name` is absent or
empty; otherwise it answers 201 with the created row, whose id is the
SERIAL counter value (distinct from every existing id when the SERIAL
invariant holds) and whose created_at is the insertion time; the counter
then advances and the SERIAL invariant is preserved, so ids are never
reused. -/
theorem claim7_create_validation (s : ServerState) (now : Nat)
    (name description : Option String) (upload : Option (String × List Nat)) :
    ((name = none ∨ name = some ("")) →
      (create s now name description upload).1 =
        .text 400 "Bad Request: inventory_name обовязкове") ∧
    (∀ n, name = some n → n ≠ "" →
      (create s now name description upload).1 =
        .created { id := s.nextId, name := n, description := jsNull description
                   photo := upload.map (fun u => u.1), createdAt := now } ∧
      (create s now name description upload).2.nextId = s.nextId + 1 ∧
      (idsBelowNext s = true →
        (∀ r ∈ s.records, r.id ≠ s.nextId) ∧
        idsBelowNext (create s now name description upload).2 = true)) := by
  have hrec : (multerStore s upload).records = s.records := multerStore_records s upload
  have hnext : (multerStore s upload).nextId = s.nextId := multerStore_nextId s upload
  constructor
  · rintro (rfl | rfl)
    · simp [create]
    · simp [create]
  · rintro n rfl hne
    refine ⟨?_, ?_, ?_⟩
    · simp [create, hne, hnext]
    · simp [create, hne, hnext]
    · intro hid
      have hlt : ∀ r ∈ s.records, r.id < s.nextId := by
        intro r hr
        have := (List.all_eq_true.mp hid) r hr
        simpa using this
      refine ⟨fun r hr => Nat.ne_of_lt (hlt r hr), ?_⟩
      have hrecs : (create s now (some n) description upload).2.records =
          s.records ++ [{ id := s.nextId, name := n, description := jsNull description
                          photo := upload.map (fun u => u.1), createdAt := now }] := by
        simp [create, hne, hrec, hnext]
      have hnext2 : (create s now (some n) description upload).2.nextId = s.nextId + 1 := by
        simp [create, hne, hnext]
      rw [idsBelowNext, List.all_eq_true]
      intro r hr
      rw [hrecs] at hr
      rw [hnext2]
      rcases List.mem_append.mp hr with hmem | hmem
      · have := hlt r hmem
        simp only [decide_eq_true_eq]
        omega
      · rcases List.mem_singleton.mp hmem with rfl
        simp only [decide_eq_true_eq]
        omega

/-- Witness for C7: a rejected empty name, and an accepted creation on
the example state. -/
theorem claim7_witness :
    (create exState 20 (some ("")) none none).1 =
      .text 400 "Bad Request: inventory_name обовязкове" ∧
    (create exState 20 (some ("New")) none (some (photoB, [3, 4]))).1 =
      .created { id := 3, name := "New", description := none
                 photo := some photoB, createdAt := 20 } ∧
    (create exState 20 (some ("New")) none (some (photoB, [3, 4]))).2.nextId = 4 ∧
    (∀ r ∈ exState.records, r.id ≠ 3) ∧
    idsBelowNext (create exState 20 (some ("New")) none (some (photoB, [3, 4]))).2 = true := by
  have h1 := (claim7_create_validation exState 20 (some ("")) none none).1 (Or.inr rfl)
  have h2 := (claim7_create_validation exState 20 (some ("New")) none
    (some (photoB, [3, 4]))).2 "New" rfl (by decide)
  exact ⟨h1, h2.1, h2.2.1, (h2.2.2 (by decide)).1, (h2.2.2 (by decide)).2⟩

/-- C5 counterexample: the claim says a provided empty string always
replaces the stored value, but `inventory_name || null` coerces the
empty string to NULL and COALESCE keeps the old name, so updating row 1
of the example state with an empty name leaves the name "Widget". -/
theorem claim5_counterexample :
    (findRecord (updateFields exState 1 (some ("")) none).2.records 1).map
      (fun r => r.name) = some ("Widget") ∧ "Widget" ≠ "" := by decide

/-- C5 (amended): PUT /inventory/:id on an existing row overwrites each
field for which a non-empty value is provided, and leaves a field
unchanged when it is omitted or provided as the empty string (which the
handler coerces to NULL before COALESCE). -/
theorem claim5_partial_update (s : ServerState) (id : Nat) (r : Record)
    (name description : Option String)
    (h : findRecord s.records id = some r) :
    ∃ r', findRecord (updateFields s id name description).2.records id = some r' ∧
      r'.name = (match name with
        | none => r.name
        | some n => if n = "" then r.name else n) ∧
      r'.description = (match description with
        | none => r.description
        | some d => if d = "" then r.description else some d) ∧
      r'.photo = r.photo ∧ r'.createdAt = r.createdAt := by
  have hid : r.id = id := (findRecord_mem h).2
  have hstate : (updateFields s id name description).2.records =
      s.records.map (fun x =>
        if x.id == id then
          { x with name := (jsNull name).getD x.name
                   description := coalesce (jsNull description) x.description }
        else x) := by
    simp [updateFields, h]
  refine ⟨{ r with name := (jsNull name).getD r.name
                   description := coalesce (jsNull description) r.description },
    ?_, ?_, ?_, rfl, rfl⟩
  · rw [hstate, findRecord_map_presId _ _ _ ?_, h]
    · have hr : (r.id == id) = true := by simp [hid]
      simp [hr]
      intro hcon
      exact absurd hid hcon
    · intro x
      split <;> rfl
  · cases name with
    | none => rfl
    | some n =>
      by_cases hn : n = ""
      · simp [jsNull, hn]
      · simp [jsNull, hn]
  · cases description with
    | none => rfl
    | some d =>
      by_cases hd : d = ""
      · simp [jsNull, coalesce, hd]
      · simp [jsNull, coalesce, hd]

/-- Witness for C5: updating row 1 with an empty name and a new
description keeps the name and overwrites the description. -/
theorem claim5_witness :
    ∃ r', findRecord (updateFields exState 1 (some ("")) (some ("steel part"))).2.records 1 =
        some r' ∧
      r'.name = recA.name ∧ r'.description = some ("steel part") ∧
      r'.photo = recA.photo ∧ r'.createdAt = recA.createdAt := by
  obtain ⟨r', h1, h2, h3, h4, h5⟩ :=
    claim5_partial_update exState 1 recA (some ("")) (some ("steel part")) (by decide)
  refine ⟨r', h1, ?_, ?_, h4, h5⟩
  · simpa using h2
  · simpa using h3

/-- C9: PUT /inventory/:id changes at most name and description: the
uploads directory and the id counter are untouched, the number of rows
is unchanged, and every row keeps its id, photo and created_at, rows
with a different id being kept verbatim. -/
theorem claim9_update_frame (s : ServerState) (id : Nat) (name description : Option String) :
    (updateFields s id name description).2.files = s.files ∧
    (updateFields s id name description).2.nextId = s.nextId ∧
    (updateFields s id name description).2.records.length = s.records.length ∧
    ∀ r' ∈ (updateFields s id name description).2.records, ∃ r ∈ s.records,
      r'.id = r.id ∧ r'.photo = r.photo ∧ r'.createdAt = r.createdAt ∧
      (r.id ≠ id → r' = r) := by
  cases h : findRecord s.records id with
  | none =>
    refine ⟨by simp [updateFields, h], by simp [updateFields, h], by simp [updateFields, h], ?_⟩
    intro r' hr'
    simp only [updateFields, h] at hr'
    exact ⟨r', hr', rfl, rfl, rfl, fun _ => rfl⟩
  | some r =>
    refine ⟨by simp [updateFields, h], by simp [updateFields, h], by simp [updateFields, h], ?_⟩
    intro r' hr'
    simp only [updateFields, h] at hr'
    obtain ⟨x, hx, hfx⟩ := List.mem_map.mp hr'
    by_cases hxid : (x.id == id) = true
    · rw [if_pos hxid] at hfx
      exact ⟨x, hx, by rw [← hfx], by rw [← hfx], by rw [← hfx],
        fun hne => absurd (by simpa using hxid) hne⟩
    · rw [if_neg hxid] at hfx
      exact ⟨x, hx, by rw [← hfx], by rw [← hfx], by rw [← hfx], fun _ => hfx.symm⟩

/-- Witness for C9: after updating row 1's name, the updated row is
accounted for by original row 1 with photo and created_at intact, and
the files and counter are untouched. -/
theorem claim9_witness :
    (updateFields exState 1 (some ("Gadget")) none).2.files = exState.files ∧
    (updateFields exState 1 (some ("Gadget")) none).2.nextId = exState.nextId ∧
    ∃ r ∈ exState.records,
      ({ recA with name := "Gadget" } : Record).id = r.id ∧
      ({ recA with name := "Gadget" } : Record).photo = r.photo ∧
      ({ recA with name := "Gadget" } : Record).createdAt = r.createdAt ∧
      (r.id ≠ 1 → { recA with name := "Gadget" } = r) := by
  have h := claim9_update_frame exState 1 (some ("Gadget")) none
  exact ⟨h.1, h.2.1, h.2.2.2 { recA with name := "Gadget" } (by decide)⟩

/-- C1 counterexample: replacing row 1's photo in the example state, the
state after the unlink of src/main.js line 327 and before the UPDATE of
line 331 still has the photo column pointing at the old filename while
the old file is already gone — the previous asset is removed before the
swap, not after it. -/
theorem claim1_counterexample :
    (findRecord (replacePhotoMid exState 1 (some (photoB, [2]))).records 1).map
      (fun r => r.photo) = some (some photoA) ∧
    fileExists (replacePhotoMid exState 1 (some (photoB, [2]))).files photoA = false := by
  decide

/-- C1 (amended): in PUT /inventory/:id/photo the new asset is stored
first (by the upload middleware); then, once the existence and
attachment checks pass, the previous asset is deleted, and only after
that is the record's photo column swapped to the new asset — the old
file is removed before the swap, not after it.  The final state has the
photo column pointing at the new filename. -/
theorem claim1_replace_order (s : ServerState) (id : Nat) (r : Record) (old fn : String)
    (b : List Nat) (h : findRecord s.records id = some r) (hold : r.photo = some old) :
    fileExists (multerStore s (some (fn, b))).files fn = true ∧
    fileExists (replacePhotoMid s id (some (fn, b))).files old = false ∧
    (findRecord (replacePhotoMid s id (some (fn, b))).records id).map (fun x => x.photo) =
      some (some old) ∧
    (findRecord (replacePhoto s id (some (fn, b))).2.records id).map (fun x => x.photo) =
      some (some fn) := by
  have h0 : findRecord (multerStore s (some (fn, b))).records id = some r := by
    rw [multerStore_records]; exact h
  have hmid : replacePhotoMid s id (some (fn, b)) =
      unlinkOldPhoto (multerStore s (some (fn, b))) r := by
    simp [replacePhotoMid, h0]
  refine ⟨?_, ?_, ?_, ?_⟩
  · simp only [multerStore]
    exact (fileExists_putFile s.files fn b fn).mpr (Or.inl rfl)
  · rw [hmid]
    exact unlinkOldPhoto_gone _ r old hold
  · rw [hmid, unlinkOldPhoto_records, multerStore_records, h]
    simp [hold]
  · have hstate : (replacePhoto s id (some (fn, b))).2.records =
        (unlinkOldPhoto (multerStore s (some (fn, b))) r).records.map
          (fun x => if x.id == id then { x with photo := some fn } else x) := by
      simp [replacePhoto, h0]
    rw [hstate, findRecord_map_presId _ _ _ ?_]
    · rw [unlinkOldPhoto_records, multerStore_records, h]
      have hid' : r.id = id := (findRecord_mem h).2
      simp [hid']
    · intro x
      split <;> rfl

/-- Witness for C1 at the example state. -/
theorem claim1_witness :
    fileExists (multerStore exState (some (photoB, [2]))).files photoB = true ∧
    fileExists (replacePhotoMid exState 1 (some (photoB, [2]))).files photoA = false ∧
    (findRecord (replacePhotoMid exState 1 (some (photoB, [2]))).records 1).map
      (fun x => x.photo) = some (some photoA) ∧
    (findRecord (replacePhoto exState 1 (some (photoB, [2]))).2.records 1).map
      (fun x => x.photo) = some (some photoB) :=
  claim1_replace_order exState 1 recA photoA photoB [2] (by decide) (by decide)

/-- C3 counterexample: deleting row 1 of the example state, the state
after the unlink of src/main.js line 364 and before the DELETE of line
366 still contains the row, whose photo column references the already
removed file — the asset is reclaimed before the row is deleted, not
after it. -/
theorem claim3_counterexample :
    findRecord (deleteRecordMid exState 1).records 1 = some recA ∧
    recA.photo = some photoA ∧
    fileExists (deleteRecordMid exState 1).files photoA = false := by
  decide

/-- C3 (amended): in DELETE /inventory/:id the photo file is unlinked
first — at the intermediate state the row still exists and references
the removed file — and only then is the row deleted; the final state has
no row with that id and answers 200. -/
theorem claim3_delete_order (s : ServerState) (id : Nat) (r : Record) (old : String)
    (h : findRecord s.records id = some r) (hold : r.photo = some old) :
    findRecord (deleteRecordMid s id).records id = some r ∧
    fileExists (deleteRecordMid s id).files old = false ∧
    findRecord (deleteRecord s id).2.records id = none ∧
    (deleteRecord s id).1 = .text 200 "Deleted successfully" := by
  have hmid : deleteRecordMid s id = unlinkOldPhoto s r := by
    simp [deleteRecordMid, h]
  refine ⟨?_, ?_, ?_, ?_⟩
  · rw [hmid, unlinkOldPhoto_records]; exact h
  · rw [hmid]
    exact unlinkOldPhoto_gone s r old hold
  · have hstate : (deleteRecord s id).2.records =
        (unlinkOldPhoto s r).records.filter (fun x => !(x.id == id)) := by
      simp [deleteRecord, h]
    rw [hstate]
    exact findRecord_filter_ne _ id
  · simp [deleteRecord, h]

/-- Witness for C3 at the example state. -/
theorem claim3_witness :
    findRecord (deleteRecordMid exState 1).records 1 = some recA ∧
    fileExists (deleteRecordMid exState 1).files photoA = false ∧
    findRecord (deleteRecord exState 1).2.records 1 = none ∧
    (deleteRecord exState 1).1 = .text 200 "Deleted successfully" :=
  claim3_delete_order exState 1 recA photoA (by decide) (by decide)

/-- C6: a valid creation with a non-empty name and an attached image,
on a state satisfying the SERIAL invariant, answers 201 with the created
row, and fetching that row's photo returns exactly the submitted
bytes. -/
theorem claim6_create_fetch_roundtrip (s : ServerState) (now : Nat) (n : String)
    (d : Option String) (fn : String) (b : List Nat)
    (hn : n ≠ "") (hid : idsBelowNext s = true) :
    (create s now (some n) d (some (fn, b))).1 =
      .created { id := s.nextId, name := n, description := jsNull d
                 photo := some fn, createdAt := now } ∧
    fetchPhoto (create s now (some n) d (some (fn, b))).2 s.nextId = .file b := by
  have hlt : ∀ r ∈ s.records, r.id < s.nextId := by
    intro r hr
    have := (List.all_eq_true.mp hid) r hr
    simpa using this
  have hresp : (create s now (some n) d (some (fn, b))).1 =
      .created { id := s.nextId, name := n, description := jsNull d
                 photo := some fn, createdAt := now } := by
    simp [create, hn, multerStore]
  refine ⟨hresp, ?_⟩
  have hrecs : (create s now (some n) d (some (fn, b))).2.records =
      s.records ++ [{ id := s.nextId, name := n, description := jsNull d
                      photo := some fn, createdAt := now }] := by
    simp [create, hn, multerStore]
  have hfiles : (create s now (some n) d (some (fn, b))).2.files =
      putFile s.files fn b := by
    simp [create, hn, multerStore]
  rw [fetchPhoto, hrecs, findRecord_append _ _ _ (fun x hx => Nat.ne_of_lt (hlt x hx))]
  have hfind : findRecord [({ id := s.nextId, name := n, description := jsNull d
                              photo := some fn, createdAt := now } : Record)] s.nextId =
      some { id := s.nextId, name := n, description := jsNull d
             photo := some fn, createdAt := now } := by
    simp [findRecord]
  rw [hfind]
  simp only [hfiles, getFile_putFile_self]

/-- C2 counterexample: the example state satisfies invariant I1, yet the
intermediate state of DELETE /inventory/:id (after the unlink of
src/main.js line 364, before the row DELETE of line 366) and the
intermediate state of PUT /inventory/:id/photo (after the unlink of line
327, before the UPDATE of line 331) both expose a row whose non-null
photo column does not resolve to a stored file. -/
theorem claim2_counterexample :
    I1 exState = true ∧
    I1 (deleteRecordMid exState 1) = false ∧
    I1 (replacePhotoMid exState 1 (some (photoB, [2]))) = false := by
  decide

/-- C2 (amended): invariant I1 holds in the final state of every
operation, provided it held before, no two rows share a photo filename,
and any uploaded filename is fresh; the intermediate states of
replace-image and delete, however, may violate it. -/
theorem claim2_invariant_final_states (s : ServerState) (op : Op)
    (h1 : I1 s = true) (h2 : photosInjective s) (h3 : opFresh s op) :
    I1 (applyOp s op) = true := by
  rw [I1_iff] at h1
  rw [I1_iff]
  intro r hr p hp
  cases op with
  | createOp now name d upload =>
    simp only [applyOp] at hr ⊢
    cases upload with
    | none =>
      cases name with
      | none =>
        simp only [create, multerStore] at hr ⊢
        exact h1 r hr p hp
      | some n =>
        by_cases hn : n = ""
        · simp only [create, multerStore, if_pos hn] at hr ⊢
          exact h1 r hr p hp
        · simp only [create, multerStore, if_neg hn] at hr ⊢
          rcases List.mem_append.mp hr with hm | hm
          · exact h1 r hm p hp
          · rcases List.mem_singleton.mp hm with rfl
            simp at hp
    | some u =>
      obtain ⟨fn, b⟩ := u
      cases name with
      | none =>
        simp only [create, multerStore] at hr ⊢
        exact (fileExists_putFile s.files fn b p).mpr (Or.inr (h1 r hr p hp))
      | some n =>
        by_cases hn : n = ""
        · simp only [create, multerStore, if_pos hn] at hr ⊢
          exact (fileExists_putFile s.files fn b p).mpr (Or.inr (h1 r hr p hp))
        · simp only [create, multerStore, if_neg hn] at hr ⊢
          rcases List.mem_append.mp hr with hm | hm
          · exact (fileExists_putFile s.files fn b p).mpr (Or.inr (h1 r hm p hp))
          · rcases List.mem_singleton.mp hm with rfl
            have hpfn : p = fn := by
              have hfp : fn = p := by simpa using hp
              exact hfp.symm
            exact (fileExists_putFile s.files fn b p).mpr (Or.inl hpfn)
  | updateOp id name d =>
    simp only [applyOp] at hr ⊢
    cases hfind : findRecord s.records id with
    | none =>
      simp only [updateFields, hfind] at hr ⊢
      exact h1 r hr p hp
    | some r0 =>
      simp only [updateFields, hfind] at hr ⊢
      obtain ⟨x, hx, hfx⟩ := List.mem_map.mp hr
      have hphoto : r.photo = x.photo := by
        rw [← hfx]
        split <;> rfl
      exact h1 x hx p (by rw [← hphoto]; exact hp)
  | replaceOp id upload =>
    simp only [applyOp] at hr ⊢
    cases upload with
    | none =>
      cases hfind : findRecord s.records id with
      | none =>
        simp only [replacePhoto, multerStore, hfind] at hr ⊢
        exact h1 r hr p hp
      | some r0 =>
        simp only [replacePhoto, multerStore, hfind] at hr ⊢
        exact h1 r hr p hp
    | some u =>
      obtain ⟨fn, b⟩ := u
      have hfresh : ∀ x ∈ s.records, x.photo ≠ some fn :=
        (photoFresh_iff s fn).mp h3
      cases hfind : findRecord s.records id with
      | none =>
        have hf : findRecord (multerStore s (some (fn, b))).records id = none := by
          rw [multerStore_records]; exact hfind
        simp only [replacePhoto, hf] at hr ⊢
        rw [multerStore_records] at hr
        exact (fileExists_putFile s.files fn b p).mpr (Or.inr (h1 r hr p hp))
      | some r0 =>
        have hf : findRecord (multerStore s (some (fn, b))).records id = some r0 := by
          rw [multerStore_records]; exact hfind
        have hr0 : r0 ∈ s.records ∧ r0.id = id := findRecord_mem hfind
        simp only [replacePhoto, hf] at hr ⊢
        rw [unlinkOldPhoto_records, multerStore_records] at hr
        obtain ⟨x, hx, hfx⟩ := List.mem_map.mp hr
        have hgoal : p = fn ∨ (p ≠ fn ∧ x.photo = some p) := by
          by_cases hxid : (x.id == id) = true
          · left
            rw [if_pos hxid] at hfx
            rw [← hfx] at hp
            simpa using hp.symm
          · right
            rw [if_neg hxid] at hfx
            rw [← hfx] at hp
            constructor
            · intro hpe
              rw [hpe] at hp
              exact hfresh x hx hp
            · exact hp
        cases hph0 : r0.photo with
        | none =>
          simp only [unlinkOldPhoto, hph0]
          rcases hgoal with hpe | ⟨hne, hxp⟩
          · exact (fileExists_putFile s.files fn b p).mpr (Or.inl hpe)
          · exact (fileExists_putFile s.files fn b p).mpr (Or.inr (h1 x hx p hxp))
        | some old =>
          have hofn : old ≠ fn := by
            intro hoe
            apply hfresh r0 hr0.1
            rw [hph0, hoe]
          by_cases hg : fileExists (multerStore s (some (fn, b))).files old = true
          · simp only [unlinkOldPhoto, hph0, hg, if_true]
            have hpo : p ≠ old := by
              rcases hgoal with hpe | ⟨hne, hxp⟩
              · rw [hpe]; exact fun hcon => hofn hcon.symm
              · intro hpe
                have hxr0 : x = r0 := by
                  apply h2 x hx r0 hr0.1
                  · rw [hxp]; exact Option.some_ne_none p
                  · rw [hxp, hpe, hph0]
                have : (x.id == id) = true := by
                  rw [hxr0]
                  simp [hr0.2]
                rw [if_pos this] at hfx
                rw [← hfx] at hp
                have : p = fn := by simpa using hp.symm
                exact hne this
            refine (fileExists_deleteFile _ old p).mpr ⟨hpo, ?_⟩
            rcases hgoal with hpe | ⟨hne, hxp⟩
            · exact (fileExists_putFile s.files fn b p).mpr (Or.inl hpe)
            · exact (fileExists_putFile s.files fn b p).mpr (Or.inr (h1 x hx p hxp))
          · simp only [unlinkOldPhoto, hph0, hg, if_false]
            rcases hgoal with hpe | ⟨hne, hxp⟩
            · exact (fileExists_putFile s.files fn b p).mpr (Or.inl hpe)
            · exact (fileExists_putFile s.files fn b p).mpr (Or.inr (h1 x hx p hxp))
  | deleteOp id =>
    simp only [applyOp] at hr ⊢
    cases hfind : findRecord s.records id with
    | none =>
      simp only [deleteRecord, hfind] at hr ⊢
      exact h1 r hr p hp
    | some r0 =>
      have hr0 : r0 ∈ s.records ∧ r0.id = id := findRecord_mem hfind
      simp only [deleteRecord, hfind] at hr ⊢
      rw [unlinkOldPhoto_records] at hr
      obtain ⟨hmem, hkeep⟩ := List.mem_filter.mp hr
      have hrid : r.id ≠ id := by
        simp only [Bool.not_eq_true'] at hkeep
        simpa using hkeep
      cases hph0 : r0.photo with
      | none =>
        simp only [unlinkOldPhoto, hph0]
        exact h1 r hmem p hp
      | some old =>
        by_cases hg : fileExists s.files old = true
        · simp only [unlinkOldPhoto, hph0, hg, if_true]
          refine (fileExists_deleteFile s.files old p).mpr ⟨?_, h1 r hmem p hp⟩
          intro hpe
          have hxr0 : r = r0 := by
            apply h2 r hmem r0 hr0.1
            · rw [hp]; exact Option.some_ne_none p
            · rw [hp, hpe, hph0]
          rw [hxr0] at hrid
          exact hrid hr0.2
        · simp only [unlinkOldPhoto, hph0, hg, if_false]
          exact h1 r hmem p hp

/-- Witness for C2: a photo replacement with a fresh filename on the
example state preserves I1. -/
theorem claim2_witness :
    I1 exState = true ∧ photosInjective exState ∧
    opFresh exState (Op.replaceOp 1 (some (photoB, [2]))) ∧
    I1 (applyOp exState (Op.replaceOp 1 (some (photoB, [2])))) = true :=
  ⟨by decide, by decide, by decide,
   claim2_invariant_final_states exState (Op.replaceOp 1 (some (photoB, [2])))
     (by decide) (by decide) (by decide)⟩

/-- Witness for C6: creating a row with image bytes on the example state
and fetching them back. -/
theorem claim6_witness :
    (create exState 20 (some ("Nut")) none (some (photoB, [9, 8]))).1 =
      .created { id := 3, name := "Nut", description := none
                 photo := some photoB, createdAt := 20 } ∧
    fetchPhoto (create exState 20 (some ("Nut")) none (some (photoB, [9, 8]))).2 3 =
      .file [9, 8] := by
  have h := claim6_create_fetch_roundtrip exState 20 "Nut" none photoB [9, 8]
    (by decide) (by decide)
  exact ⟨h.1, h.2⟩
